import Mathlib

/-!
# Verification of the SARIF panel store layer

Shallow embedding of the reactive store layer of the SARIF viewer panel:
`IndexStore` (src/panel/indexStore.ts), `ResultTableStore`
(src/unnamed/part_001) and the table keyboard navigation
(src/unnamed/part_000).  JavaScript objects used as string-keyed maps are
embedded as association lists in insertion order (JS objects preserve string
key insertion order); `undefined`/`null` become `Option`; the `Visibility`
flags (booleans or truthy strings) become `Bool` (truthiness).
-/

namespace SarifPanel

/-- A region of an artifact; only `startLine` is consulted by the stores. -/
structure Region where
  startLine : Option Nat
deriving DecidableEq

/-- Rule metadata as consulted by the `Rule` column (`result._rule?.name`). -/
structure Rule where
  name : Option String
deriving DecidableEq

/-- A physical location.  The stores only test its presence and read its
region, so the payload is irrelevant here. -/
structure PhysicalLocation where
  hasRegion : Bool
deriving DecidableEq

/-- One entry of `result.locations`. -/
structure Location where
  physicalLocation : Option PhysicalLocation
deriving DecidableEq

/-- A property-bag value, already rendered: `none` stands for a JS
`null`/`undefined` value (rendered as an em-dash by dynamic columns), and
`some s` for any other value together with its rendered text
(`String(value)`, or `JSON.stringify(value)` for objects). -/
abbrev PropVal := Option String

/-- A SARIF result as consumed by the stores.  `_id` is the stable identity
key; the code always uses `JSON.stringify(result._id)` as the map key, so we
embed the stringified key directly. -/
structure Result where
  _id : String
  level : Option String
  baselineState : Option String
  _suppression : Option String
  _message : Option String
  _relativeUri : Option String
  _region : Option Region
  _rule : Option Rule
  ruleId : Option String
  _uri : Option String
  locations : Option (List Location)
  properties : Option (List (String × PropVal))
deriving DecidableEq

/-- A run: a list of results (`run.results` may be absent). -/
structure Run where
  results : Option (List Result)
deriving DecidableEq

/-- A loaded log document. -/
structure Log where
  _uri : Option String
  runs : List Run
deriving DecidableEq

/-- Triage status of a result (shared `ResultStatus`). -/
inductive ResultStatus
  | unchecked
  | truePositive
  | falsePositive
deriving DecidableEq

/-- The triage map `resultStatuses` (stringified result id → status). -/
abbrev ResultStatusMap := List (String × ResultStatus)

/-- Row filter state: `filtersRow` with its three categories.  The
constructor observes `filtersRow.Level`, `filtersRow.Baseline` and
`filtersRow.Suppression`, so these three fields must exist on any state the
store runs with; each is a JS object from value label to visibility flag. -/
structure RowFilters where
  Level : List (String × Bool)
  Baseline : List (String × Bool)
  Suppression : List (String × Bool)
deriving DecidableEq

/-- Column filter state: `filtersColumn`, a single `Columns` record from
column name to visibility flag. -/
structure ColumnFilters where
  Columns : List (String × Bool)
deriving DecidableEq

/-- `filtersSource`: the slice of `IndexStore` the table store reads for
filtering. -/
structure FiltersSource where
  keywords : String
  filtersRow : RowFilters
  filtersColumn : ColumnFilters
deriving DecidableEq

/-! ## Columns (ResultTableStore) -/

/-- Which renderer a column carries.  Each `Column` object of the source is
identified by its renderer: the seven members of `columnsOptional` and, for
each discovered property key, a dynamic column reading that key. -/
inductive ColKind
  | line
  | file
  | status
  | message
  | baseline
  | suppression
  | rule
  | dyn (key : String)
deriving DecidableEq

/-- A column: display name, default width, renderer. -/
structure Column where
  name : String
  width : Nat
  kind : ColKind
deriving DecidableEq

/-- `columnsPermanent` is the empty list in the source. -/
def columnsPermanent : List Column := []

/-- `columnsOptional` of `ResultTableStore`, in source order. -/
def columnsOptional : List Column :=
  [⟨"Line", 50, ColKind.line⟩,
   ⟨"File", 250, ColKind.file⟩,
   ⟨"Status", 100, ColKind.status⟩,
   ⟨"Message", 300, ColKind.message⟩,
   ⟨"Baseline", 100, ColKind.baseline⟩,
   ⟨"Suppression", 100, ColKind.suppression⟩,
   ⟨"Rule", 220, ColKind.rule⟩]

/-- `dynamicPropertyColumns`: one 150-wide column per discovered key. -/
def dynamicPropertyColumns (dynamicColumns : List String) : List Column :=
  dynamicColumns.map (fun key => ⟨key, 150, ColKind.dyn key⟩)

/-- `get columns()`: permanent ++ optional ++ dynamic. -/
def columns (dynamicColumns : List String) : List Column :=
  columnsPermanent ++ columnsOptional ++ dynamicPropertyColumns dynamicColumns

/-- Rendered text of the `Status` column:
`status === 'true-positive' ? 'TP' : status === 'false-positive' ? 'FP' : '—'`. -/
def statusText (statuses : ResultStatusMap) (id : String) : String :=
  match statuses.lookup id with
  | some ResultStatus.truePositive => "TP"
  | some ResultStatus.falsePositive => "FP"
  | _ => "—"

/-- The `toString` renderer of each column, as written in the source. -/
def renderColumn (statuses : ResultStatusMap) (col : Column) (r : Result) : String :=
  match col.kind with
  | ColKind.line => ((r._region.bind Region.startLine).map toString).getD "—"
  | ColKind.file => r._relativeUri.getD ""
  | ColKind.status => statusText statuses r._id
  | ColKind.message => r._message.getD ""
  | ColKind.baseline => r.baselineState.getD ""
  | ColKind.suppression => r._suppression.getD ""
  | ColKind.rule =>
      ((r._rule.bind Rule.name).getD "—") ++ " " ++ (r.ruleId.getD "—")
  | ColKind.dyn key =>
      match r.properties with
      | none => "—"
      | some props =>
        match props.lookup key with
        | none => "—"
        | some none => "—"
        | some (some s) => s

/-! ## The filter predicate (ResultTableStore.filter) -/

/-- JS `toLowerCase()`, character by character. -/
def toLowerStr (s : String) : String :=
  String.mk (s.data.map Char.toLower)

/-- `mapToList`: entries of a visibility record whose flag is truthy, each
label lowercased. -/
def mapToList (record : List (String × Bool)) : List String :=
  (record.filter (fun p => p.2)).map (fun p => toLowerStr p.1)

/-- Whether the first character list leads the second one. -/
def leadsWith : List Char → List Char → Bool
  | [], _ => true
  | _ :: _, [] => false
  | a :: as, b :: bs => a == b && leadsWith as bs

/-- Whether the needle occurs contiguously inside the haystack. -/
def containsSub (needle : List Char) : List Char → Bool
  | [] => needle.isEmpty
  | b :: bs => leadsWith needle (b :: bs) || containsSub needle bs

/-- JS `field.includes(keyword)`: substring occurrence. -/
def occursIn (field keyword : String) : Bool :=
  containsSub keyword.toList field.toList

/-- Split a character list at every character satisfying the predicate
(adjacent separators yield empty pieces, as JS `split` does). -/
def splitOnPred (p : Char → Bool) : List Char → List (List Char)
  | [] => [[]]
  | c :: cs =>
    if p c then [] :: splitOnPred p cs
    else
      match splitOnPred p cs with
      | [] => [[c]]
      | piece :: rest => (c :: piece) :: rest

/-- `keywords.toLowerCase().split(/\s+/).filter(part => part)`: the empty
pieces the split leaves behind are filtered out, so this is exactly the
whitespace-delimited token list. -/
def tokenizeKeywords (keywords : String) : List String :=
  ((splitOnPred Char.isWhitespace (toLowerStr keywords).data).map String.mk).filter
    (fun part => part ≠ "")

/-- `get filter()` of `ResultTableStore`: level, baseline and suppression
must be among the visible (lowercased) labels, and the keyword clause scans
`this.columns` — the full column list. -/
def filterPred (fs : FiltersSource) (statuses : ResultStatusMap)
    (dynamicColumns : List String) (r : Result) : Bool :=
  let levels := mapToList fs.filtersRow.Level
  let baselines := mapToList fs.filtersRow.Baseline
  let suppressions := mapToList fs.filtersRow.Suppression
  let filterKeywords := tokenizeKeywords fs.keywords
  if ¬ levels.contains (r.level.getD "") then false
  else if ¬ baselines.contains (r.baselineState.getD "") then false
  else if ¬ suppressions.contains (r._suppression.getD "") then false
  else
    (columns dynamicColumns).any (fun col =>
      let field := (toLowerStr (renderColumn statuses col r))
      filterKeywords.isEmpty || filterKeywords.any (fun kw => occursIn field kw))

/-! ## Visible columns (ResultTableStore.visibleColumns) -/

/-- Phase 1 of the column-order pass: for each name of `columnOrder`, the
first matching column of `unorderedColumns`, absent names skipped. -/
def pickOrdered (unorderedColumns : List Column) : List String → List Column
  | [] => []
  | colName :: rest =>
    match unorderedColumns.find? (fun c => c.name == colName) with
    | some col => col :: pickOrdered unorderedColumns rest
    | none => pickOrdered unorderedColumns rest

/-- Phase 2 of the column-order pass: append every column not already in the
growing `orderedColumns` accumulator. -/
def appendRemaining (acc : List Column) : List Column → List Column
  | [] => acc
  | col :: rest =>
    if col ∈ acc then appendRemaining acc rest
    else appendRemaining (acc ++ [col]) rest

/-- `get visibleColumns()`: permanent columns minus the grouping-key column,
plus the optional and dynamic columns whose visibility flag is truthy; then,
when a column order is set, reordered by `columnOrder`. -/
def visibleColumns (groupName : String) (filtersColumn : ColumnFilters)
    (dynamicColumns : List String) (columnOrder : List String) : List Column :=
  let optionalColumnNames :=
    (filtersColumn.Columns.filter (fun p => p.2)).map (fun p => p.1)
  let unorderedColumns :=
    (columnsPermanent.filter (fun col => col.name ≠ groupName)) ++
    (columnsOptional.filter (fun col => optionalColumnNames.contains col.name)) ++
    ((dynamicPropertyColumns dynamicColumns).filter
      (fun col => optionalColumnNames.contains col.name))
  if columnOrder.isEmpty then unorderedColumns
  else appendRemaining (pickOrdered unorderedColumns columnOrder) unorderedColumns

/-! ## IndexStore construction (filter-state restore) -/

/-- JS object spread `{...base, ...overlay}` on string-keyed records:
base keys in order with overlay values where present, then overlay-only keys
in overlay order. -/
def jsSpread (base overlay : List (String × Bool)) : List (String × Bool) :=
  base.map (fun p => (p.1, (overlay.lookup p.1).getD p.2)) ++
  overlay.filter (fun p => ¬ (base.map Prod.fst).contains p.1)

/-- The persisted state blob handed to the `IndexStore` constructor:
`state.filtersRow` and the optional `state.filtersColumn` (accessed as
`state.filtersColumn?.Columns`). -/
structure PersistedState where
  filtersRow : RowFilters
  filtersColumn : Option ColumnFilters
deriving DecidableEq

/-- The filter state of an `IndexStore` right after construction. -/
structure IndexStoreFilters where
  filtersRow : RowFilters
  filtersColumn : ColumnFilters
deriving DecidableEq

/-- The constructor's filter-state restore:
`this.filtersRow = state.filtersRow` (verbatim, no merge) and
`this.filtersColumn = { Columns: { ...defaults.Columns, ...state.filtersColumn?.Columns } }`. -/
def indexStoreCtorFilters (defaultsColumn : ColumnFilters)
    (state : PersistedState) : IndexStoreFilters :=
  { filtersRow := state.filtersRow
  , filtersColumn :=
      ⟨jsSpread defaultsColumn.Columns
        ((state.filtersColumn.map ColumnFilters.Columns).getD [])⟩ }

/-- Modelled from the spec: the built-in filter defaults (the shared
`filtersRow`/`filtersColumn` constants live outside this snapshot).  The
spec names the row categories Level, Baseline and Suppression, with level
values such as error/warning and baseline values new/unchanged/absent/updated. -/
def defaultFiltersRow : RowFilters :=
  { Level := [("Error", true), ("Warning", true), ("Note", true), ("None", true)]
  , Baseline := [("New", true), ("Unchanged", true), ("Updated", true), ("Absent", false)]
  , Suppression := [("Not Suppressed", true), ("Suppressed", false)] }

/-- Modelled from the spec: the built-in column visibility defaults. -/
def defaultFiltersColumn : ColumnFilters :=
  ⟨[("Line", false), ("File", true), ("Status", true), ("Message", true),
    ("Baseline", false), ("Suppression", false), ("Rule", true)]⟩

/-! ## Dynamic column discovery (IndexStore.extractDynamicColumns) -/

/-- JS property assignment `m[k] = v` on a string-keyed record: update in
place when the key exists, append otherwise. -/
def jsAssign {β : Type} (m : List (String × β)) (k : String) (v : β) :
    List (String × β) :=
  if (m.map Prod.fst).contains k then
    m.map (fun p => if p.1 == k then (p.1, v) else p)
  else m ++ [(k, v)]

/-- `Set.add`: insert at the end unless already present. -/
def insertKey (acc : List String) (k : String) : List String :=
  if k ∈ acc then acc else acc ++ [k]

/-- All property keys of a log's results in iteration order, the reserved
`tags` key skipped (the guard sits at the `add` site in the source). -/
def logKeyList (log : Log) : List String :=
  log.runs.flatMap (fun run =>
    (run.results.getD []).flatMap (fun r =>
      match r.properties with
      | none => []
      | some props => (props.map Prod.fst).filter (fun k => k ≠ "tags")))

/-- The `propertyKeys` set of `extractDynamicColumns`: the key list deduped
in first-seen order. -/
def logPropertyKeys (log : Log) : List String :=
  (logKeyList log).foldl insertKey []

/-- The slice of `IndexStore` state that dynamic column discovery touches. -/
structure DynState where
  dynamicColumns : List String
  filtersColumnColumns : List (String × Bool)
deriving DecidableEq

/-- The body of the `propertyKeys.forEach` of `extractDynamicColumns`: a key
not yet among `dynamicColumns` is appended, and seeds a `false`
column-visibility entry when the current entry is falsy (absent or `false`). -/
def addDynamicKey (s : DynState) (key : String) : DynState :=
  if key ∈ s.dynamicColumns then s
  else
    { dynamicColumns := s.dynamicColumns ++ [key]
    , filtersColumnColumns :=
        if (s.filtersColumnColumns.lookup key).getD false then s.filtersColumnColumns
        else jsAssign s.filtersColumnColumns key false }

/-- `extractDynamicColumns(log)`. -/
def extractDynamicColumns (s : DynState) (log : Log) : DynState :=
  (logPropertyKeys log).foldl addDynamicKey s

/-- Ingest a sequence of logs: `extractDynamicColumns` runs once per added
log (from the `intercept` on the `logs` array). -/
def ingestLogs (s : DynState) (logs : List Log) : DynState :=
  logs.foldl extractDynamicColumns s

/-- Dynamic-column state at construction: no dynamic columns yet. -/
def dynInit (filtersColumnColumns : List (String × Bool)) : DynState :=
  ⟨[], filtersColumnColumns⟩

/-! ## Rows, results and selection -/

/-- The flattened `results` getter: all runs' results across all logs in
document order (`run.results ?? []`). -/
def allResults (logs : List Log) : List Result :=
  logs.flatMap (fun log => log.runs.flatMap (fun run => run.results.getD []))

/-- A row emitted for display: a closed sum of `RowGroup` and `RowItem`. -/
inductive Row
  | group (key : String) (expanded : Bool)
  | item (r : Result)
deriving DecidableEq

/-- Modelled from the spec: `findResult` (shared/index.ts is outside this
snapshot) resolves a result identity to the matching known result across
the loaded logs. -/
def findResult (logs : List Log) (id : String) : Option Result :=
  (allResults logs).find? (fun r => r._id == id)

/-- Modelled from the spec: `TableStore.select(result)` (src/panel/tableStore.ts
is outside this snapshot) sets the shared selection slot to the Item row
wrapping the result. -/
def storeSelect (r : Result) : Option Row :=
  some (Row.item r)

/-- The `select` branch of `IndexStore.onMessage`: a falsy id (absent or
empty) clears the selection; otherwise the id is resolved with `findResult`,
an unresolvable id raises (`throw new Error('Unexpected: result undefined')`,
embedded as `Except.error` — the handler is a total function, the error is a
value surfaced for that message, not a state change); a resolved result is
selected in the active tab's store (`this.selectedTab.get().store?.select`,
a no-op when the active tab has no store). -/
def onMessageSelect (logs : List Log) (activeTabHasStore : Bool)
    (sel : Option Row) (id : Option String) : Except String (Option Row) :=
  match id with
  | none => Except.ok none
  | some i =>
    if i == "" then Except.ok none
    else
      match findResult logs i with
      | none => Except.error "Unexpected: result undefined"
      | some r => Except.ok (if activeTabHasStore then storeSelect r else sel)

/-! ## Outbound selection sync (autorun + postSelectArtifact) -/

/-- JS truthiness of an optional string (`undefined` and `''` are falsy). -/
def jsTruthy (s : Option String) : Bool :=
  match s with
  | none => false
  | some str => str ≠ ""

/-- `result.locations?.[0]?.physicalLocation`. -/
def plocOf (r : Result) : Option PhysicalLocation :=
  (r.locations.bind List.head?).bind Location.physicalLocation

/-- Whether the selection autorun posts an outbound `select` message:
the autorun bails unless the selected row is a `RowItem` with a truthy
`_uri`; `postSelectArtifact` then bails unless the view is active
(`isActive()`) and a physical location is present. -/
def selectionAutorunEmits (active : Bool) (sel : Option Row) : Bool :=
  match sel with
  | some (Row.item r) => jsTruthy r._uri && active && (plocOf r).isSome
  | _ => false

/-! ## Document-list mutations and the selection-clearing observer -/

/-- A primitive mutation of the observable `logs` array: `splice(i, 1)`
(performed when a removal uri matched at index `i`) or `push(log)`. -/
inductive LogsMutation
  | removeAt (i : Nat)
  | push (log : Log)
deriving DecidableEq

/-- One `logs` mutation followed by the `observe(this.logs, ...)` reaction:
when the resulting list is empty the shared selection is set to `undefined`,
otherwise the reaction returns early. -/
def applyLogsMutation (logs : List Log) (sel : Option Row)
    (m : LogsMutation) : List Log × Option Row :=
  let logs2 :=
    match m with
    | LogsMutation.removeAt i => logs.eraseIdx i
    | LogsMutation.push log => logs ++ [log]
  (logs2, if logs2.isEmpty then none else sel)

/-! ## Triage status (setResultStatus / getResultStatus) -/

/-- The outbound `setResultStatus` message payload. -/
structure SetResultStatusMsg where
  resultId : String
  status : ResultStatus
deriving DecidableEq

/-- `setResultStatus`: one map update and the list of messages this call
posts — exactly one `{command:'setResultStatus', resultId, status}`. -/
def setResultStatus (statuses : ResultStatusMap) (resultId : String)
    (status : ResultStatus) : ResultStatusMap × List SetResultStatusMsg :=
  (jsAssign statuses resultId status, [⟨resultId, status⟩])

/-- `getResultStatus`: `this.resultStatuses[resultId] || 'unchecked'`
(every stored status is a truthy string, so `||` only fires on absence). -/
def getResultStatus (statuses : ResultStatusMap) (resultId : String) :
    ResultStatus :=
  match statuses.lookup resultId with
  | some s => s
  | none => ResultStatus.unchecked

/-! ## Keyboard navigation (Table.onKeyDown) -/

/-- JS `rows.indexOf(selection.get())`: `-1` when nothing is selected or the
selected row is not a rendered row. -/
def jsIndexOf (rows : List Row) (sel : Option Row) : Int :=
  match sel with
  | none => -1
  | some r =>
    match rows.findIdx? (fun x => x == r) with
    | some i => (i : Int)
    | none => -1

/-- JS `rows[i]` for a possibly out-of-range signed index. -/
def jsGetRow (rows : List Row) (i : Int) : Option Row :=
  if i < 0 then none else rows.get? i.toNat

/-- `ArrowDown: () => selection.set(rows[index + 1] ?? rows[index])`. -/
def arrowDown (rows : List Row) (sel : Option Row) : Option Row :=
  match jsGetRow rows (jsIndexOf rows sel + 1) with
  | some r => some r
  | none => jsGetRow rows (jsIndexOf rows sel)

/-- `ArrowUp: () => selection.set(rows[index - 1] ?? rows[index] ?? rows[0])`. -/
def arrowUp (rows : List Row) (sel : Option Row) : Option Row :=
  match jsGetRow rows (jsIndexOf rows sel - 1) with
  | some r => some r
  | none =>
    match jsGetRow rows (jsIndexOf rows sel) with
    | some r => some r
    | none => jsGetRow rows 0

/-! ## The filter predicate as the spec states it (for comparison) -/

/-- The filter predicate in the words of the spec (claim C1): identical row
filters, but the keyword clause scans only the VISIBLE columns, and is
vacuously true with zero tokens.  This definition follows the spec, not the
source, and exists to be compared with `filterPred`. -/
def specFilterPred (groupName : String) (fs : FiltersSource)
    (statuses : ResultStatusMap) (dynamicColumns : List String)
    (columnOrder : List String) (r : Result) : Bool :=
  let levels := mapToList fs.filtersRow.Level
  let baselines := mapToList fs.filtersRow.Baseline
  let suppressions := mapToList fs.filtersRow.Suppression
  let filterKeywords := tokenizeKeywords fs.keywords
  levels.contains (r.level.getD "") &&
  baselines.contains (r.baselineState.getD "") &&
  suppressions.contains (r._suppression.getD "") &&
  (filterKeywords.isEmpty ||
    (visibleColumns groupName fs.filtersColumn dynamicColumns columnOrder).any
      (fun col =>
        filterKeywords.any (fun kw => occursIn ((toLowerStr (renderColumn statuses col r))) kw)))

/-! ## Concrete fixtures -/

/-- A result whose rule name is `foobar` (the spec's keyword scenario):
level `error`, baseline `new`, not suppressed, message `hello`. -/
def exampleResult : Result :=
  { _id := "r1", level := some "error", baselineState := some "new",
    _suppression := some "unsuppressed", _message := some "hello",
    _relativeUri := some "a.txt", _region := none,
    _rule := some ⟨some "foobar"⟩, ruleId := none, _uri := some "file:///a.txt",
    locations := some [⟨some ⟨true⟩⟩], properties := none }

/-- Filter state for the keyword scenario: keyword `foo`, row filters
admitting `exampleResult`, only the `Message` column visible (`Rule`
hidden). -/
def exampleFilters : FiltersSource :=
  { keywords := "foo"
  , filtersRow :=
      { Level := [("Error", true)]
      , Baseline := [("New", true)]
      , Suppression := [("Unsuppressed", true)] }
  , filtersColumn := ⟨[("Message", true)]⟩ }

/-- A log whose single result carries the property key `Line`, clashing
with the built-in `Line` column. -/
def exampleLog : Log :=
  ⟨some "log1", [⟨some [{ exampleResult with properties := some [("Line", some "5")] }]⟩]⟩

/-- A persisted state blob whose row-filter categories are all empty. -/
def examplePersisted : PersistedState :=
  ⟨⟨[], [], []⟩, some ⟨[]⟩⟩

/-! ## Helper lemmas on association lists -/

theorem lookup_isSome_of_mem {β : Type} (l : List (String × β)) (k : String) (v : β)
    (h : (k, v) ∈ l) : (l.lookup k).isSome = true := by
  induction l with
  | nil => cases h
  | cons p rest ih =>
    by_cases hk : k = p.1
    · simp [List.lookup, hk]
    · have hne : (k == p.1) = false := beq_eq_false_iff_ne.mpr hk
      have hmem : (k, v) ∈ rest := by
        rcases List.mem_cons.mp h with h1 | h1
        · exact absurd (congrArg Prod.fst h1) hk
        · exact h1
      simp only [List.lookup, hne]
      exact ih hmem

theorem lookup_map_keyfix {β : Type} (g : String × β → β) (l : List (String × β))
    (k : String) :
    (List.lookup k (l.map (fun p => (p.1, g p)))).isSome = (List.lookup k l).isSome := by
  induction l with
  | nil => simp
  | cons p rest ih =>
    by_cases hk : k = p.1
    · simp [List.lookup, hk]
    · have hne : (k == p.1) = false := beq_eq_false_iff_ne.mpr hk
      simp only [List.map_cons, List.lookup, hne]
      exact ih

theorem lookup_append_isSome {β : Type} (l1 l2 : List (String × β)) (k : String)
    (h : (List.lookup k l1).isSome = true) :
    (List.lookup k (l1 ++ l2)).isSome = true := by
  induction l1 with
  | nil => simp [List.lookup] at h
  | cons p rest ih =>
    by_cases hk : k = p.1
    · simp [List.lookup, hk]
    · have hne : (k == p.1) = false := beq_eq_false_iff_ne.mpr hk
      simp only [List.cons_append, List.lookup, hne] at *
      exact ih h

/-- A key present in the base record stays present after a JS spread. -/
theorem jsSpread_preserves_base_keys (base overlay : List (String × Bool))
    (k : String) (v : Bool) (h : (k, v) ∈ base) :
    (List.lookup k (jsSpread base overlay)).isSome = true := by
  unfold jsSpread
  apply lookup_append_isSome
  rw [lookup_map_keyfix]
  exact lookup_isSome_of_mem base k v h

/-! ## C2 (corrected) -/

/-- C2 counterexample: `Error` is a known default level value, yet after
construction from a persisted blob whose `Level` map is empty, the store's
`Level` map has no entry for it — row filters are NOT merged with defaults. -/
theorem ctor_row_filters_not_merged :
    defaultFiltersRow.Level.lookup "Error" = some true ∧
    (indexStoreCtorFilters defaultFiltersColumn examplePersisted).filtersRow.Level.lookup
      "Error" = none := by
  decide

/-- C2 (amended): after construction, the column-filter map keeps an entry
for every default column (persisted overrides merged over the defaults),
while the row-filter state is taken verbatim from the persisted blob, with
no merge against the built-in row-filter defaults. -/
theorem ctor_merges_columns_only (defaults : ColumnFilters) (state : PersistedState) :
    (∀ k v, (k, v) ∈ defaults.Columns →
      ((indexStoreCtorFilters defaults state).filtersColumn.Columns.lookup k).isSome
        = true) ∧
    (indexStoreCtorFilters defaults state).filtersRow = state.filtersRow := by
  constructor
  · intro k v hkv
    exact jsSpread_preserves_base_keys _ _ k v hkv
  · rfl

/-- C2 witness: the amended theorem at the built-in defaults and the empty
persisted blob. -/
theorem ctor_merges_columns_only_witness :
    ((indexStoreCtorFilters defaultFiltersColumn examplePersisted).filtersColumn.Columns.lookup
      "File").isSome = true ∧
    (indexStoreCtorFilters defaultFiltersColumn examplePersisted).filtersRow
      = examplePersisted.filtersRow :=
  ⟨(ctor_merges_columns_only defaultFiltersColumn examplePersisted).1 "File" true
      (by decide),
   (ctor_merges_columns_only defaultFiltersColumn examplePersisted).2⟩

/-! ## C8 (confirmed) -/

/-- C8: for every prior selection state, a document-list mutation that
leaves the list empty clears the shared selection. -/
theorem empty_logs_clears_selection (logs : List Log) (sel : Option Row)
    (m : LogsMutation) (h : (applyLogsMutation logs sel m).1 = []) :
    (applyLogsMutation logs sel m).2 = none := by
  unfold applyLogsMutation at *
  simp only at h ⊢
  rw [h]
  simp

/-- C8 witness: removing the only log while a Group row is selected clears
the selection. -/
theorem empty_logs_clears_selection_witness :
    (applyLogsMutation [exampleLog] (some (Row.group "g" true))
      (LogsMutation.removeAt 0)).1 = [] ∧
    (applyLogsMutation [exampleLog] (some (Row.group "g" true))
      (LogsMutation.removeAt 0)).2 = none :=
  ⟨by decide,
   empty_logs_clears_selection [exampleLog] (some (Row.group "g" true))
     (LogsMutation.removeAt 0) (by decide)⟩

/-! ## Lemmas on jsAssign -/

theorem lookup_update_of_contains {β : Type} (m : List (String × β)) (k : String)
    (v : β) (hc : ((m.map Prod.fst).contains k) = true) :
    List.lookup k (m.map (fun p => if p.1 == k then (p.1, v) else p)) = some v := by
  induction m with
  | nil => simp at hc
  | cons p rest ih =>
    by_cases hk : k = p.1
    · have hpk : (p.1 == k) = true := beq_iff_eq.mpr hk.symm
      simp only [List.map_cons]
      rw [if_pos hpk]
      simp only [List.lookup, beq_iff_eq.mpr hk]
    · have hne : (k == p.1) = false := beq_eq_false_iff_ne.mpr hk
      have hpk : (p.1 == k) = false := beq_eq_false_iff_ne.mpr (fun e => hk e.symm)
      have hrest : ((rest.map Prod.fst).contains k) = true := by
        simp only [List.map_cons, List.contains_cons, hne, Bool.false_or] at hc
        exact hc
      simp only [List.map_cons]
      rw [if_neg (by simp [hpk])]
      simp only [List.lookup, hne]
      exact ih hrest

theorem lookup_none_of_not_contains {β : Type} (m : List (String × β)) (k : String)
    (hc : ((m.map Prod.fst).contains k) = false) :
    List.lookup k m = none := by
  induction m with
  | nil => rfl
  | cons p rest ih =>
    simp only [List.map_cons, List.contains_cons, Bool.or_eq_false_iff] at hc
    simp only [List.lookup, hc.1]
    exact ih hc.2

theorem lookup_append_single_self {β : Type} (m : List (String × β)) (k : String)
    (v : β) (h : List.lookup k m = none) :
    List.lookup k (m ++ [(k, v)]) = some v := by
  induction m with
  | nil => simp [List.lookup]
  | cons p rest ih =>
    by_cases hk : k = p.1
    · simp [List.lookup, beq_iff_eq.mpr hk] at h
    · have hne : (k == p.1) = false := beq_eq_false_iff_ne.mpr hk
      simp only [List.lookup, hne] at h
      simp only [List.cons_append, List.lookup, hne]
      exact ih h

/-- `m[k] = v` makes a subsequent `m[k]` read return `v`. -/
theorem lookup_jsAssign_self {β : Type} (m : List (String × β)) (k : String) (v : β) :
    List.lookup k (jsAssign m k v) = some v := by
  unfold jsAssign
  by_cases hc : ((m.map Prod.fst).contains k) = true
  · simp only [hc, if_true]
    exact lookup_update_of_contains m k v hc
  · have hcf : ((m.map Prod.fst).contains k) = false := by
      cases hx : ((m.map Prod.fst).contains k) with
      | true => exact absurd hx hc
      | false => rfl
    simp only [hcf, Bool.false_eq_true, if_neg, not_false_eq_true]
    exact lookup_append_single_self m k v (lookup_none_of_not_contains m k hcf)

theorem lookup_append_single_ne {β : Type} (m : List (String × β)) (k kq : String)
    (v : β) (h : kq ≠ k) :
    List.lookup kq (m ++ [(k, v)]) = List.lookup kq m := by
  induction m with
  | nil => simp [List.lookup, beq_eq_false_iff_ne.mpr h]
  | cons p rest ih =>
    by_cases hk : kq = p.1
    · simp [List.lookup, beq_iff_eq.mpr hk]
    · have hne : (kq == p.1) = false := beq_eq_false_iff_ne.mpr hk
      simp only [List.cons_append, List.lookup, hne]
      exact ih

theorem lookup_update_ne {β : Type} (m : List (String × β)) (k kq : String)
    (v : β) (h : kq ≠ k) :
    List.lookup kq (m.map (fun p => if p.1 == k then (p.1, v) else p))
      = List.lookup kq m := by
  induction m with
  | nil => rfl
  | cons p rest ih =>
    by_cases hk : kq = p.1
    · have hpk : (p.1 == k) = false := by
        apply beq_eq_false_iff_ne.mpr
        intro e
        exact h (hk.trans e)
      simp only [List.map_cons]
      rw [if_neg (by simp [hpk])]
      simp [List.lookup, beq_iff_eq.mpr hk]
    · have hne : (kq == p.1) = false := beq_eq_false_iff_ne.mpr hk
      by_cases hpk : (p.1 == k) = true
      · simp only [List.map_cons]
        rw [if_pos hpk]
        simp only [List.lookup, hne]
        exact ih
      · have hpkf : (p.1 == k) = false := by
          cases hx : (p.1 == k) with
          | true => exact absurd hx hpk
          | false => rfl
        simp only [List.map_cons]
        rw [if_neg (by simp [hpkf])]
        simp only [List.lookup, hne]
        exact ih

/-- `m[k] = v` leaves every other key's read unchanged. -/
theorem lookup_jsAssign_ne {β : Type} (m : List (String × β)) (k kq : String)
    (v : β) (h : kq ≠ k) :
    List.lookup kq (jsAssign m k v) = List.lookup kq m := by
  unfold jsAssign
  by_cases hc : ((m.map Prod.fst).contains k) = true
  · simp only [hc, if_true]
    exact lookup_update_ne m k kq v h
  · have hcf : ((m.map Prod.fst).contains k) = false := by
      cases hx : ((m.map Prod.fst).contains k) with
      | true => exact absurd hx hc
      | false => rfl
    simp only [hcf, Bool.false_eq_true, if_neg, not_false_eq_true]
    exact lookup_append_single_ne m k kq v h

/-! ## C9 (confirmed) -/

/-- C9: `setResultStatus(id, status)` updates the triage map so that a
subsequent `getResultStatus(id)` returns that status, and posts exactly the
one outbound `setResultStatus` message `{resultId: id, status}`;
`getResultStatus` returns `unchecked` for every identity absent from the
map. -/
theorem result_status_roundtrip (statuses : ResultStatusMap) (id : String)
    (st : ResultStatus) :
    getResultStatus (setResultStatus statuses id st).1 id = st ∧
    (setResultStatus statuses id st).2 = [⟨id, st⟩] ∧
    (setResultStatus statuses id st).2.length = 1 ∧
    (∀ idq, statuses.lookup idq = none →
      getResultStatus statuses idq = ResultStatus.unchecked) := by
  refine ⟨?_, rfl, rfl, ?_⟩
  · unfold getResultStatus setResultStatus
    rw [lookup_jsAssign_self]
  · intro idq hq
    unfold getResultStatus
    rw [hq]

/-- C9 witness: marking result `r2` false-positive. -/
theorem result_status_roundtrip_witness :
    getResultStatus (setResultStatus [] "r2" ResultStatus.falsePositive).1 "r2"
      = ResultStatus.falsePositive ∧
    (setResultStatus [] "r2" ResultStatus.falsePositive).2
      = [⟨"r2", ResultStatus.falsePositive⟩] ∧
    getResultStatus [] "r2" = ResultStatus.unchecked :=
  ⟨(result_status_roundtrip [] "r2" ResultStatus.falsePositive).1,
   (result_status_roundtrip [] "r2" ResultStatus.falsePositive).2.1,
   (result_status_roundtrip [] "r2" ResultStatus.falsePositive).2.2.2 "r2" rfl⟩

/-! ## C10 (confirmed) -/

/-- C10: with no row selected, ArrowDown selects the first rendered row —
not a no-op — symmetric to the ArrowUp select-first fallback. -/
theorem arrowDown_no_selection_selects_first (r : Row) (rest : List Row) :
    arrowDown (r :: rest) none = some r ∧ arrowUp (r :: rest) none = some r := by
  constructor
  · unfold arrowDown jsIndexOf jsGetRow
    norm_num
  · unfold arrowUp jsIndexOf jsGetRow
    norm_num

/-! ## C5 (confirmed) -/

/-- C5: the inbound `select` handler clears the selection when the message
carries no identity; an identity that resolves to no known result makes the
handler surface a protocol error for that message (the embedded handler is a
total function returning `Except.error`, mirroring the thrown `Error` — the
message is dropped without any state change, the process does not crash);
a resolving identity selects the result in the active tab's store. -/
theorem onMessage_select_branches (logs : List Log) (sel : Option Row) :
    (∀ active, onMessageSelect logs active sel none = Except.ok none) ∧
    (∀ active i, i ≠ "" → findResult logs i = none →
      onMessageSelect logs active sel (some i)
        = Except.error "Unexpected: result undefined") ∧
    (∀ i r, i ≠ "" → findResult logs i = some r →
      onMessageSelect logs true sel (some i) = Except.ok (some (Row.item r))) := by
  refine ⟨fun _ => rfl, ?_, ?_⟩
  · intro active i hne hfind
    simp only [onMessageSelect]
    rw [if_neg (by simp [hne]), hfind]
  · intro i r hne hfind
    simp only [onMessageSelect]
    rw [if_neg (by simp [hne]), hfind]
    rfl

/-- C5 witness: over a single-log list whose only result is `exampleResult`
(id `r1`), a `select` with no id deselects, id `zz` is a protocol error, and
id `r1` selects the result. -/
theorem onMessage_select_branches_witness :
    onMessageSelect [exampleLog] true none none = Except.ok none ∧
    onMessageSelect [exampleLog] true none (some "zz")
      = Except.error "Unexpected: result undefined" ∧
    onMessageSelect [exampleLog] true none (some "r1")
      = Except.ok (some (Row.item
          { exampleResult with properties := some [("Line", some "5")] })) :=
  ⟨(onMessage_select_branches [exampleLog] none).1 true,
   (onMessage_select_branches [exampleLog] none).2.1 true "zz" (by decide) (by decide),
   (onMessage_select_branches [exampleLog] none).2.2 "r1"
     { exampleResult with properties := some [("Line", some "5")] } (by decide)
     (by decide)⟩

/-! ## C6 (confirmed) -/

/-- C6: the selection autorun posts an outbound `select` if and only if the
selected row is an Item whose result carries a resolvable physical location
(a truthy `_uri` and a present first physical location) AND the view is the
active one; in particular an inactive view never emits. -/
theorem outbound_select_iff :
    (∀ active sel, selectionAutorunEmits active sel = true ↔
      ∃ r, sel = some (Row.item r) ∧ jsTruthy r._uri = true ∧
        (plocOf r).isSome = true ∧ active = true) ∧
    (∀ sel, selectionAutorunEmits false sel = false) := by
  constructor
  · intro active sel
    cases sel with
    | none => simp [selectionAutorunEmits]
    | some row =>
      cases row with
      | group key exp => simp [selectionAutorunEmits]
      | item r =>
        simp only [selectionAutorunEmits, Bool.and_eq_true]
        constructor
        · rintro ⟨⟨h1, h2⟩, h3⟩
          exact ⟨r, rfl, h1, h3, h2⟩
        · rintro ⟨rq, heq, hq1, hq3, hq4⟩
          have hrr : rq = r := by
            injection heq with h2
            injection h2 with h3
            exact h3.symm
          subst hrr
          exact ⟨⟨hq1, hq4⟩, hq3⟩
  · intro sel
    cases sel with
    | none => rfl
    | some row =>
      cases row with
      | group key exp => rfl
      | item r => simp [selectionAutorunEmits]

/-- C6 witness: with the resolvable `exampleResult` selected, the active
view emits and the inactive view does not. -/
theorem outbound_select_iff_witness :
    selectionAutorunEmits true (some (Row.item exampleResult)) = true ∧
    selectionAutorunEmits false (some (Row.item exampleResult)) = false :=
  ⟨(outbound_select_iff.1 true (some (Row.item exampleResult))).mpr
      ⟨exampleResult, rfl, by decide, by decide, rfl⟩,
   outbound_select_iff.2 (some (Row.item exampleResult))⟩

/-! ## C1 counterexample (corrected) -/

/-- C1 counterexample: keyword `foo`, rule name `foobar`, the `Rule` column
hidden and no visible column containing `foo` — the claim says the result is
excluded, but the store's filter accepts it because the keyword clause scans
the full column list, visibility ignored. -/
theorem filter_scans_hidden_columns :
    filterPred exampleFilters [] [] exampleResult = true ∧
    specFilterPred "File" exampleFilters [] [] [] exampleResult = false := by
  decide

/-! ## C3 counterexample (corrected) -/

/-- C3 counterexample: grouping by `File` with the `File` column's
visibility flag set — `visibleColumns` still contains the column that
duplicates the grouping key. -/
theorem visibleColumns_keeps_group_column :
    (⟨"File", 250, ColKind.file⟩ : Column)
        ∈ visibleColumns "File" ⟨[("File", true)]⟩ [] [] ∧
    (⟨"File", 250, ColKind.file⟩ : Column).name = "File" := by
  constructor
  · decide
  · rfl

/-! ## C4 counterexample (corrected) -/

/-- C4 counterexample: ingesting a log whose result carries the property key
`Line` produces a dynamic column named `Line`, duplicating the built-in
`Line` column — the active column list's names are not unique. -/
theorem column_names_not_unique :
    ¬ List.Nodup
      ((columns
        (extractDynamicColumns (dynInit defaultFiltersColumn.Columns)
          exampleLog).dynamicColumns).map Column.name) := by
  decide

/-! ## C3 (corrected): membership characterization of visibleColumns -/

theorem mem_appendRemaining (x : Column) (acc l : List Column) :
    x ∈ appendRemaining acc l ↔ x ∈ acc ∨ x ∈ l := by
  induction l generalizing acc with
  | nil => simp [appendRemaining]
  | cons c rest ih =>
    simp only [appendRemaining]
    by_cases hc : c ∈ acc
    · rw [if_pos hc, ih]
      constructor
      · rintro (h | h)
        · exact Or.inl h
        · exact Or.inr (List.mem_cons_of_mem c h)
      · rintro (h | h)
        · exact Or.inl h
        · rcases List.mem_cons.mp h with h1 | h1
          · exact Or.inl (h1 ▸ hc)
          · exact Or.inr h1
    · rw [if_neg hc, ih]
      simp only [List.mem_append, List.mem_singleton, List.mem_cons]
      tauto

theorem mem_of_mem_pickOrdered (x : Column) (u : List Column) (names : List String)
    (h : x ∈ pickOrdered u names) : x ∈ u := by
  induction names with
  | nil => cases h
  | cons n rest ih =>
    simp only [pickOrdered] at h
    cases hf : u.find? (fun c => c.name == n) with
    | none =>
      rw [hf] at h
      exact ih h
    | some col =>
      rw [hf] at h
      rcases List.mem_cons.mp h with h1 | h1
      · exact h1 ▸ List.mem_of_find?_eq_some hf
      · exact ih h1

/-- C3 (amended): a column is in `visibleColumns` iff it is an optional or
dynamic column whose visibility flag is truthy.  The grouping-key exclusion
applies only to the permanent column list — which is empty — so a visible
column whose name duplicates the active grouping key IS included. -/
theorem visibleColumns_mem_iff (groupName : String) (fc : ColumnFilters)
    (dyn : List String) (order : List String) (col : Column) :
    col ∈ visibleColumns groupName fc dyn order ↔
      ((col ∈ columnsOptional ∨ col ∈ dynamicPropertyColumns dyn) ∧
       col.name ∈ (fc.Columns.filter (fun p => p.2)).map Prod.fst) := by
  have hu : ∀ (u1 u2 : List Column),
      u1 = columnsOptional.filter (fun c =>
        (((fc.Columns.filter (fun p => p.2)).map Prod.fst).contains c.name)) →
      u2 = (dynamicPropertyColumns dyn).filter (fun c =>
        (((fc.Columns.filter (fun p => p.2)).map Prod.fst).contains c.name)) →
      (col ∈ u1 ++ u2 ↔
        ((col ∈ columnsOptional ∨ col ∈ dynamicPropertyColumns dyn) ∧
         col.name ∈ (fc.Columns.filter (fun p => p.2)).map Prod.fst)) := by
    rintro u1 u2 rfl rfl
    rw [List.mem_append, List.mem_filter, List.mem_filter]
    constructor
    · rintro (⟨h1, h2⟩ | ⟨h1, h2⟩)
      · exact ⟨Or.inl h1, List.elem_iff.mp h2⟩
      · exact ⟨Or.inr h1, List.elem_iff.mp h2⟩
    · rintro ⟨h1 | h1, h2⟩
      · exact Or.inl ⟨h1, List.elem_iff.mpr h2⟩
      · exact Or.inr ⟨h1, List.elem_iff.mpr h2⟩
  simp only [visibleColumns, columnsPermanent, List.filter_nil, List.nil_append]
  by_cases ho : order.isEmpty = true
  · rw [if_pos ho]
    exact hu _ _ rfl rfl
  · rw [if_neg ho, mem_appendRemaining]
    constructor
    · rintro (h | h)
      · exact (hu _ _ rfl rfl).mp (mem_of_mem_pickOrdered _ _ _ h)
      · exact (hu _ _ rfl rfl).mp h
    · intro h
      exact Or.inr ((hu _ _ rfl rfl).mpr h)

/-- C3 witness: with only the `Message` column visible and no grouping
conflict, `visibleColumns` contains the `Message` column. -/
theorem visibleColumns_mem_iff_witness :
    (⟨"Message", 300, ColKind.message⟩ : Column)
      ∈ visibleColumns "File" ⟨[("Message", true)]⟩ [] [] :=
  (visibleColumns_mem_iff "File" ⟨[("Message", true)]⟩ [] []
    ⟨"Message", 300, ColKind.message⟩).mpr ⟨Or.inl (by decide), by decide⟩

/-! ## C1 (corrected): characterization of the filter predicate -/

/-- C1 (amended): the filter accepts a result iff its level, baseline state
and suppression state are among the visible (lowercased) labels AND either
no keyword token exists, or some case-insensitive token is a substring of
the rendered text of some column of the store's FULL column list — fixed
and dynamic, the column-visibility map ignored, so a match in a hidden
column also passes. -/
theorem filterPred_iff (fs : FiltersSource) (statuses : ResultStatusMap)
    (dyn : List String) (r : Result) :
    filterPred fs statuses dyn r = true ↔
      ((r.level.getD "") ∈ mapToList fs.filtersRow.Level ∧
       (r.baselineState.getD "") ∈ mapToList fs.filtersRow.Baseline ∧
       (r._suppression.getD "") ∈ mapToList fs.filtersRow.Suppression ∧
       (tokenizeKeywords fs.keywords = [] ∨
        ∃ col ∈ columns dyn, ∃ kw ∈ tokenizeKeywords fs.keywords,
          occursIn (toLowerStr (renderColumn statuses col r)) kw = true)) := by
  simp only [filterPred]
  by_cases h1 :
      ((mapToList fs.filtersRow.Level).contains (r.level.getD "")) = true
  · rw [if_neg (not_not_intro h1)]
    by_cases h2 :
        ((mapToList fs.filtersRow.Baseline).contains (r.baselineState.getD "")) = true
    · rw [if_neg (not_not_intro h2)]
      by_cases h3 :
          ((mapToList fs.filtersRow.Suppression).contains (r._suppression.getD "")) = true
      · rw [if_neg (not_not_intro h3)]
        have m1 := List.elem_iff.mp h1
        have m2 := List.elem_iff.mp h2
        have m3 := List.elem_iff.mp h3
        by_cases htok : tokenizeKeywords fs.keywords = []
        · constructor
          · intro _
            exact ⟨m1, m2, m3, Or.inl htok⟩
          · intro _
            rw [htok]
            simp [columns, columnsPermanent, columnsOptional]
        · have hEmpty : (tokenizeKeywords fs.keywords).isEmpty = false := by
            cases hx : tokenizeKeywords fs.keywords with
            | nil => exact absurd hx htok
            | cons a as => rfl
          rw [List.any_eq_true]
          constructor
          · rintro ⟨col, hcol, hp⟩
            rw [hEmpty, Bool.false_or, List.any_eq_true] at hp
            obtain ⟨kw, hkw, hocc⟩ := hp
            exact ⟨m1, m2, m3, Or.inr ⟨col, hcol, kw, hkw, hocc⟩⟩
          · rintro ⟨_, _, _, h | ⟨col, hcol, kw, hkw, hocc⟩⟩
            · exact absurd h htok
            · refine ⟨col, hcol, ?_⟩
              rw [hEmpty, Bool.false_or, List.any_eq_true]
              exact ⟨kw, hkw, hocc⟩
      · rw [if_pos h3]
        simp only [Bool.false_eq_true, false_iff]
        rintro ⟨_, _, hm3, _⟩
        exact h3 (List.elem_iff.mpr hm3)
    · rw [if_pos h2]
      simp only [Bool.false_eq_true, false_iff]
      rintro ⟨_, hm2, _, _⟩
      exact h2 (List.elem_iff.mpr hm2)
  · rw [if_pos h1]
    simp only [Bool.false_eq_true, false_iff]
    rintro ⟨hm1, _, _, _⟩
    exact h1 (List.elem_iff.mpr hm1)

/-- C1 witness: the keyword scenario result passes via the (hidden) `Rule`
column. -/
theorem filterPred_iff_witness :
    filterPred exampleFilters [] [] exampleResult = true :=
  (filterPred_iff exampleFilters [] [] exampleResult).mpr
    ⟨by decide, by decide, by decide,
     Or.inr ⟨⟨"Rule", 220, ColKind.rule⟩, by decide, "foo", by decide, by decide⟩⟩

/-! ## Dynamic-column discovery lemmas (C4/C7) -/

theorem addDynamicKey_of_mem (s : DynState) (k : String)
    (h : k ∈ s.dynamicColumns) : addDynamicKey s k = s := by
  unfold addDynamicKey
  rw [if_pos h]

theorem addDynamicKey_mem_self (s : DynState) (k : String) :
    k ∈ (addDynamicKey s k).dynamicColumns := by
  unfold addDynamicKey
  by_cases h : k ∈ s.dynamicColumns
  · rw [if_pos h]
    exact h
  · rw [if_neg h]
    simp

theorem addDynamicKey_dyn_mono (s : DynState) (k a : String)
    (h : a ∈ s.dynamicColumns) : a ∈ (addDynamicKey s k).dynamicColumns := by
  unfold addDynamicKey
  by_cases hm : k ∈ s.dynamicColumns
  · rw [if_pos hm]
    exact h
  · rw [if_neg hm]
    simp only [List.mem_append]
    exact Or.inl h

theorem addDynamicKey_dyn_not_mem (s : DynState) (k a : String)
    (hne : a ≠ k) (h : a ∉ s.dynamicColumns) :
    a ∉ (addDynamicKey s k).dynamicColumns := by
  unfold addDynamicKey
  by_cases hm : k ∈ s.dynamicColumns
  · rw [if_pos hm]
    exact h
  · rw [if_neg hm]
    simp only [List.mem_append, List.mem_singleton]
    rintro (h1 | h1)
    · exact h h1
    · exact hne h1

theorem addDynamicKey_cols_ne (s : DynState) (k a : String) (hne : a ≠ k) :
    (addDynamicKey s k).filtersColumnColumns.lookup a
      = s.filtersColumnColumns.lookup a := by
  unfold addDynamicKey
  by_cases hm : k ∈ s.dynamicColumns
  · rw [if_pos hm]
  · rw [if_neg hm]
    by_cases ht : ((s.filtersColumnColumns.lookup k).getD false) = true
    · simp only
      rw [if_pos ht]
    · simp only
      rw [if_neg ht]
      exact lookup_jsAssign_ne _ k a false hne

theorem foldl_dyn_mono (keys : List String) (s : DynState) (a : String)
    (h : a ∈ s.dynamicColumns) :
    a ∈ (keys.foldl addDynamicKey s).dynamicColumns := by
  induction keys generalizing s with
  | nil => exact h
  | cons k rest ih =>
    exact ih (addDynamicKey s k) (addDynamicKey_dyn_mono s k a h)

theorem mem_foldl_of_mem_keys (keys : List String) (s : DynState) (k : String)
    (h : k ∈ keys) : k ∈ (keys.foldl addDynamicKey s).dynamicColumns := by
  induction keys generalizing s with
  | nil => cases h
  | cons k0 rest ih =>
    rcases List.mem_cons.mp h with h1 | h1
    · subst h1
      exact foldl_dyn_mono rest (addDynamicKey s k) k (addDynamicKey_mem_self s k)
    · exact ih (addDynamicKey s k0) h1

theorem foldl_id_of_subset (keys : List String) (s : DynState)
    (h : ∀ k ∈ keys, k ∈ s.dynamicColumns) : keys.foldl addDynamicKey s = s := by
  induction keys with
  | nil => rfl
  | cons k rest ih =>
    simp only [List.foldl_cons]
    rw [addDynamicKey_of_mem s k (h k (List.mem_cons_self k rest))]
    exact ih (fun a ha => h a (List.mem_cons_of_mem k ha))

theorem mem_dyn_foldl_cases (keys : List String) (s : DynState) (a : String)
    (h : a ∈ (keys.foldl addDynamicKey s).dynamicColumns) :
    a ∈ s.dynamicColumns ∨ a ∈ keys := by
  induction keys generalizing s with
  | nil => exact Or.inl h
  | cons k rest ih =>
    rcases ih (addDynamicKey s k) h with h1 | h1
    · by_cases hak : a = k
      · exact Or.inr (hak ▸ List.mem_cons_self k rest)
      · unfold addDynamicKey at h1
        by_cases hm : k ∈ s.dynamicColumns
        · rw [if_pos hm] at h1
          exact Or.inl h1
        · rw [if_neg hm] at h1
          simp only [List.mem_append, List.mem_singleton] at h1
          rcases h1 with h2 | h2
          · exact Or.inl h2
          · exact absurd h2 hak
    · exact Or.inr (List.mem_cons_of_mem k h1)

theorem addDynamicKey_nodup (s : DynState) (k : String)
    (h : s.dynamicColumns.Nodup) : (addDynamicKey s k).dynamicColumns.Nodup := by
  unfold addDynamicKey
  by_cases hm : k ∈ s.dynamicColumns
  · rw [if_pos hm]
    exact h
  · rw [if_neg hm]
    simp only [List.nodup_append]
    refine ⟨h, List.nodup_singleton k, ?_⟩
    intro a ha hb
    rw [List.mem_singleton] at hb
    exact hm (hb ▸ ha)

theorem foldl_nodup (keys : List String) (s : DynState)
    (h : s.dynamicColumns.Nodup) :
    (keys.foldl addDynamicKey s).dynamicColumns.Nodup := by
  induction keys generalizing s with
  | nil => exact h
  | cons k rest ih => exact ih (addDynamicKey s k) (addDynamicKey_nodup s k h)

theorem mem_of_mem_foldl_insertKey (l : List String) (acc : List String)
    (x : String) (h : x ∈ l.foldl insertKey acc) : x ∈ acc ∨ x ∈ l := by
  induction l generalizing acc with
  | nil => exact Or.inl h
  | cons k rest ih =>
    rcases ih (insertKey acc k) h with h1 | h1
    · unfold insertKey at h1
      by_cases hm : k ∈ acc
      · rw [if_pos hm] at h1
        exact Or.inl h1
      · rw [if_neg hm] at h1
        simp only [List.mem_append, List.mem_singleton] at h1
        rcases h1 with h2 | h2
        · exact Or.inl h2
        · exact Or.inr (h2 ▸ List.mem_cons_self k rest)
    · exact Or.inr (List.mem_cons_of_mem k h1)

theorem tags_not_mem_logPropertyKeys (log : Log) :
    "tags" ∉ logPropertyKeys log := by
  intro h
  rcases mem_of_mem_foldl_insertKey (logKeyList log) [] "tags" h with h1 | h1
  · cases h1
  · unfold logKeyList at h1
    rw [List.mem_flatMap] at h1
    obtain ⟨run, _, h2⟩ := h1
    rw [List.mem_flatMap] at h2
    obtain ⟨r, _, h3⟩ := h2
    cases hp : r.properties with
    | none =>
      rw [hp] at h3
      cases h3
    | some props =>
      rw [hp] at h3
      rw [List.mem_filter] at h3
      simp at h3

theorem extract_tags (s : DynState) (log : Log)
    (h : "tags" ∉ s.dynamicColumns) :
    "tags" ∉ (extractDynamicColumns s log).dynamicColumns := by
  intro hmem
  rcases mem_dyn_foldl_cases (logPropertyKeys log) s "tags" hmem with h1 | h1
  · exact h h1
  · exact tags_not_mem_logPropertyKeys log h1

theorem foldl_cols_of_mem_dyn (keys : List String) (s : DynState) (k : String)
    (h : k ∈ s.dynamicColumns) :
    (keys.foldl addDynamicKey s).filtersColumnColumns.lookup k
      = s.filtersColumnColumns.lookup k := by
  induction keys generalizing s with
  | nil => rfl
  | cons k0 rest ih =>
    by_cases hk : k = k0
    · subst hk
      simp only [List.foldl_cons]
      rw [addDynamicKey_of_mem s k h]
      exact ih s h
    · simp only [List.foldl_cons]
      rw [ih (addDynamicKey s k0) (addDynamicKey_dyn_mono s k0 k h)]
      exact addDynamicKey_cols_ne s k0 k hk

theorem foldl_seeds (keys : List String) (s : DynState) (k : String)
    (hmem : k ∈ keys) (hdyn : k ∉ s.dynamicColumns)
    (hcols : s.filtersColumnColumns.lookup k = none) :
    (keys.foldl addDynamicKey s).filtersColumnColumns.lookup k = some false := by
  induction keys generalizing s with
  | nil => cases hmem
  | cons k0 rest ih =>
    by_cases hk : k = k0
    · subst hk
      simp only [List.foldl_cons]
      have hstep :
          (addDynamicKey s k).filtersColumnColumns.lookup k = some false := by
        unfold addDynamicKey
        rw [if_neg hdyn]
        have hfalse : ((s.filtersColumnColumns.lookup k).getD false) = false := by
          rw [hcols]
          rfl
        simp only
        rw [if_neg (by simp [hfalse])]
        exact lookup_jsAssign_self _ k false
      rw [foldl_cols_of_mem_dyn rest (addDynamicKey s k) k
        (addDynamicKey_mem_self s k)]
      exact hstep
    · have hmem2 : k ∈ rest := by
        rcases List.mem_cons.mp hmem with h1 | h1
        · exact absurd h1 hk
        · exact h1
      simp only [List.foldl_cons]
      exact ih (addDynamicKey s k0)
        hmem2
        (addDynamicKey_dyn_not_mem s k0 k hk hdyn)
        ((addDynamicKey_cols_ne s k0 k hk).trans hcols)

/-! ## C7 (confirmed) -/

/-- C7: dynamic column discovery is idempotent — re-ingesting the same log
changes nothing; a key already discovered is never added again (the
dynamic-column list stays duplicate-free); the reserved `tags` key is never
added; and a newly added key with no column-visibility entry seeds a hidden
(`false`) entry. -/
theorem extract_idempotent_and_seeds (s : DynState) (log : Log) :
    (extractDynamicColumns (extractDynamicColumns s log) log
      = extractDynamicColumns s log) ∧
    (s.dynamicColumns.Nodup →
      (extractDynamicColumns s log).dynamicColumns.Nodup) ∧
    ("tags" ∉ s.dynamicColumns →
      "tags" ∉ (extractDynamicColumns s log).dynamicColumns) ∧
    (∀ k, k ∉ s.dynamicColumns →
      k ∈ (extractDynamicColumns s log).dynamicColumns →
      s.filtersColumnColumns.lookup k = none →
      (extractDynamicColumns s log).filtersColumnColumns.lookup k = some false) := by
  refine ⟨?_, fun h => foldl_nodup _ s h, fun h => extract_tags s log h, ?_⟩
  · unfold extractDynamicColumns
    apply foldl_id_of_subset
    intro k hk
    exact mem_foldl_of_mem_keys _ s k hk
  · intro k hdyn hmem hcols
    have hkeys : k ∈ logPropertyKeys log := by
      rcases mem_dyn_foldl_cases (logPropertyKeys log) s k hmem with h1 | h1
      · exact absurd h1 hdyn
      · exact h1
    exact foldl_seeds _ s k hkeys hdyn hcols

/-- C7 witness: ingesting `exampleLog` (key `Line`) into the empty store:
re-ingestion is a no-op, the state stays duplicate-free and `tags`-free, and
the new key seeds a hidden column entry. -/
theorem extract_idempotent_and_seeds_witness :
    (extractDynamicColumns (extractDynamicColumns (dynInit []) exampleLog) exampleLog
      = extractDynamicColumns (dynInit []) exampleLog) ∧
    (extractDynamicColumns (dynInit []) exampleLog).dynamicColumns.Nodup ∧
    "tags" ∉ (extractDynamicColumns (dynInit []) exampleLog).dynamicColumns ∧
    (extractDynamicColumns (dynInit []) exampleLog).filtersColumnColumns.lookup
      "Line" = some false :=
  ⟨(extract_idempotent_and_seeds (dynInit []) exampleLog).1,
   (extract_idempotent_and_seeds (dynInit []) exampleLog).2.1 (by decide),
   (extract_idempotent_and_seeds (dynInit []) exampleLog).2.2.1 (by decide),
   (extract_idempotent_and_seeds (dynInit []) exampleLog).2.2.2 "Line" (by decide)
     (by decide) (by decide)⟩

/-! ## C4 (corrected): amended uniqueness -/

/-- C4 (amended): after any sequence of document ingestions from a fresh
store, the dynamic column names are pairwise distinct and never `tags`, and
the built-in names are pairwise distinct — but a dynamic column MAY share
its name with a built-in column, so the combined active column list's names
need not be unique. -/
theorem dynamic_column_names_unique (cols0 : List (String × Bool))
    (logs : List Log) :
    ((dynamicPropertyColumns
        (ingestLogs (dynInit cols0) logs).dynamicColumns).map Column.name).Nodup ∧
    "tags" ∉ (ingestLogs (dynInit cols0) logs).dynamicColumns ∧
    (columnsOptional.map Column.name).Nodup := by
  have names_eq : ∀ dyn : List String,
      (dynamicPropertyColumns dyn).map Column.name = dyn := by
    intro dyn
    unfold dynamicPropertyColumns
    rw [List.map_map]
    exact List.map_id' dyn
  have invar : ∀ (logs2 : List Log) (s : DynState),
      s.dynamicColumns.Nodup → "tags" ∉ s.dynamicColumns →
      (ingestLogs s logs2).dynamicColumns.Nodup ∧
        "tags" ∉ (ingestLogs s logs2).dynamicColumns := by
    intro logs2
    induction logs2 with
    | nil => exact fun s h1 h2 => ⟨h1, h2⟩
    | cons log rest ih =>
      intro s h1 h2
      exact ih (extractDynamicColumns s log) (foldl_nodup _ s h1)
        (extract_tags s log h2)
  obtain ⟨hn, ht⟩ := invar logs (dynInit cols0) List.nodup_nil (by simp [dynInit])
  rw [names_eq]
  exact ⟨hn, ht, by decide⟩

/-- C4 witness: one ingestion of `exampleLog` keeps the dynamic names
duplicate-free. -/
theorem dynamic_column_names_unique_witness :
    ((dynamicPropertyColumns
        (ingestLogs (dynInit []) [exampleLog]).dynamicColumns).map
      Column.name).Nodup ∧
    "tags" ∉ (ingestLogs (dynInit []) [exampleLog]).dynamicColumns :=
  ⟨(dynamic_column_names_unique [] [exampleLog]).1,
   (dynamic_column_names_unique [] [exampleLog]).2.1⟩

end SarifPanel
